import Mathlib

/-!
Verification development for the openapi-studio engine.

The definitions below are a shallow embedding of the TypeScript source:
  - src/core/src/stores/openapi.ts   (document store: resolveReference,
    generateExampleFromSchema, formatSchemaForDisplay, endpoints,
    securitySchemes, getAvailableSecuritySchemes, loadSpec)
  - src/core/src/stores/endpoint.ts  (request history store)
  - the endpoint-tester component (sendRequest, formatAsCurl)
  - the service-host store (loadOpenApiSpec single-flight guard)

JavaScript platform built-ins (JSON.parse, JSON.stringify, string methods,
encodeURIComponent, URLSearchParams, btoa) are modelled by executable Lean
functions over character lists.  Recursive schema walks whose termination is
not structural are modelled with an explicit fuel parameter; a result of
none means the call did not finish within the given fuel, and a result that
is none for every fuel means the source function diverges on that input.
-/

namespace OpenApiStudio

/-! ## String helpers modelling JavaScript string built-ins -/

/-- Whitespace as recognised by the JavaScript trim and by JSON. -/
def isWsChar (c : Char) : Bool :=
  c = ' ' ∨ c = '\t' ∨ c = '\n' ∨ c = '\r'

/-- Model of the JavaScript String.prototype.trim method. -/
def jsTrim (s : String) : String :=
  ⟨((s.data.dropWhile isWsChar).reverse.dropWhile isWsChar).reverse⟩

/-- Split a character list at every occurrence of the separator character,
as the JavaScript split method does (returns at least one piece). -/
def splitChars (sep : Char) : List Char → List (List Char)
  | [] => [[]]
  | c :: cs =>
    match splitChars sep cs with
    | [] => [[]]
    | piece :: rest => if c = sep then [] :: piece :: rest else (c :: piece) :: rest

/-- Model of str.split(sep) for a one-character separator. -/
def jsSplit (s : String) (sep : Char) : List String :=
  (splitChars sep s.data).map (fun cs => ⟨cs⟩)

/-- Model of arr.pop() applied to the result of a split: the last piece,
or the empty string for an empty list (the split list is never empty). -/
def lastSegment (ptr : String) : String :=
  (jsSplit ptr '/').getLast?.getD ""

/-- Remove the first occurrence of the pattern, as str.replace(pat, '')
with a plain-string pattern does (first occurrence only). -/
def removeFirstChars (pat : List Char) : List Char → List Char
  | [] => []
  | c :: cs =>
    if (pat.isPrefixOf (c :: cs)) then (c :: cs).drop pat.length
    else c :: removeFirstChars pat cs

/-- Model of str.replace(pat, repl) with a plain-string pattern:
only the first occurrence is replaced. -/
def replaceFirst (s pat repl : String) : String :=
  match go s.data with
  | some cs => ⟨cs⟩
  | none => s
where
  go : List Char → Option (List Char)
    | [] => if pat.data = [] then some repl.data else none
    | c :: cs =>
      if pat.data.isPrefixOf (c :: cs) then
        some (repl.data ++ (c :: cs).drop pat.data.length)
      else
        (go cs).map (fun r => c :: r)

/-- Replace every occurrence of a character by a string, as a global
regular-expression replace on a single character does. -/
def replaceAllChar (s : String) (target : Char) (repl : String) : String :=
  ⟨s.data.foldr (fun c acc => if c = target then repl.data ++ acc else c :: acc) []⟩

/-- Model of str.repeat(n). -/
def repeatStr (s : String) (n : Nat) : String :=
  ⟨(List.replicate n s.data).flatten⟩

/-- Model of str.toUpperCase() for the ASCII method names used here. -/
def jsToUpper (s : String) : String :=
  ⟨s.data.map Char.toUpper⟩

/-- Character comparison by code point, modelling the lexical comparison
that String.prototype.localeCompare performs on these ASCII path and
method strings. -/
def charCmp (a b : Char) : Ordering :=
  if a.toNat < b.toNat then .lt else if b.toNat < a.toNat then .gt else .eq

/-- Lexicographic comparison of character lists by code point. -/
def charsCmp : List Char → List Char → Ordering
  | [], [] => .eq
  | [], _ :: _ => .lt
  | _ :: _, [] => .gt
  | a :: as, b :: bs =>
    match charCmp a b with
    | .lt => .lt
    | .gt => .gt
    | .eq => charsCmp as bs

/-- Model of a.localeCompare(b) collapsed to an Ordering. -/
def strCmp (a b : String) : Ordering :=
  charsCmp a.data b.data

/-! ## JSON values and the JSON platform built-ins -/

/-- JSON values.  Numbers are modelled as integers: every numeric literal
produced by the engine itself (0, 0.0, example defaults in the scenarios)
is an integer, and no verified claim depends on a non-integer number. -/
inductive Json where
  | null : Json
  | bool (b : Bool) : Json
  | num (n : Int) : Json
  | str (s : String) : Json
  | arr (items : List Json) : Json
  | obj (fields : List (String × Json)) : Json

/-- Escape a string body for a JSON string literal, as JSON.stringify does. -/
def jsonEscape (s : String) : String :=
  ⟨s.data.foldr (fun c acc =>
      if c = '"' then '\\' :: '"' :: acc
      else if c = '\\' then '\\' :: '\\' :: acc
      else if c = '\n' then '\\' :: 'n' :: acc
      else if c = '\t' then '\\' :: 't' :: acc
      else if c = '\r' then '\\' :: 'r' :: acc
      else c :: acc) []⟩

/-- Model of JSON.stringify(v) with no indentation. -/
def jsonStringify : Json → String
  | .null => "null"
  | .bool true => "true"
  | .bool false => "false"
  | .num n => toString n
  | .str s => "\"" ++ jsonEscape s ++ "\""
  | .arr items => "[" ++ String.intercalate "," (items.attach.map (fun x => jsonStringify x.1)) ++ "]"
  | .obj fields =>
    "\x7b" ++
      String.intercalate ","
        (fields.attach.map (fun kv => "\"" ++ jsonEscape kv.1.1 ++ "\":" ++ jsonStringify kv.1.2)) ++
      "\x7d"
termination_by v => sizeOf v
decreasing_by
  · have := List.sizeOf_lt_of_mem x.2
    simp at *
    omega
  · rcases kv with ⟨⟨k, j⟩, hm⟩
    have := List.sizeOf_lt_of_mem hm
    simp at *
    omega

/-- Model of JSON.stringify(v, null, 2): two-space indented rendering. -/
def jsonStringifyPretty (v : Json) (level : Nat) : String :=
  match v with
  | .null => "null"
  | .bool true => "true"
  | .bool false => "false"
  | .num n => toString n
  | .str s => "\"" ++ jsonEscape s ++ "\""
  | .arr [] => "[]"
  | .arr items =>
    "[\n" ++
      String.intercalate ",\n"
        (items.attach.map (fun x =>
          repeatStr "  " (level + 1) ++ jsonStringifyPretty x.1 (level + 1))) ++
      "\n" ++ repeatStr "  " level ++ "]"
  | .obj [] => "\x7b\x7d"
  | .obj fields =>
    "\x7b\n" ++
      String.intercalate ",\n"
        (fields.attach.map (fun kv =>
          repeatStr "  " (level + 1) ++ "\"" ++ jsonEscape kv.1.1 ++ "\": " ++
            jsonStringifyPretty kv.1.2 (level + 1))) ++
      "\n" ++ repeatStr "  " level ++ "\x7d"
termination_by sizeOf v
decreasing_by
  · have := List.sizeOf_lt_of_mem x.2
    simp at *
    omega
  · rcases kv with ⟨⟨k, j⟩, hm⟩
    have := List.sizeOf_lt_of_mem hm
    simp at *
    omega

/-- Skip JSON whitespace. -/
def skipWs (cs : List Char) : List Char :=
  cs.dropWhile isWsChar

/-- Parse the remainder of a JSON string literal after the opening quote,
handling the standard escapes. -/
def parseJsonString : List Char → Option (String × List Char) :=
  go []
where
  go (acc : List Char) : List Char → Option (String × List Char)
    | [] => none
    | c :: cs =>
      if c = '"' then some (⟨acc.reverse⟩, cs)
      else if c = '\\' then
        match cs with
        | [] => none
        | e :: cs' =>
          if e = '"' then go ('"' :: acc) cs'
          else if e = '\\' then go ('\\' :: acc) cs'
          else if e = '/' then go ('/' :: acc) cs'
          else if e = 'n' then go ('\n' :: acc) cs'
          else if e = 't' then go ('\t' :: acc) cs'
          else if e = 'r' then go ('\r' :: acc) cs'
          else if e = 'b' then go ((Char.ofNat 8) :: acc) cs'
          else if e = 'f' then go ((Char.ofNat 12) :: acc) cs'
          else none
      else go (c :: acc) cs

/-- Digit value of a decimal digit character, if it is one. -/
def digitVal (c : Char) : Option Nat :=
  if '0' ≤ c ∧ c ≤ '9' then some (c.toNat - '0'.toNat) else none

/-- Parse a run of decimal digits. -/
def parseDigits : List Char → Option (Nat × List Char)
  | cs =>
    let digits := cs.takeWhile (fun c => (digitVal c).isSome)
    if digits = [] then none
    else some (digits.foldl (fun acc c => 10 * acc + ((digitVal c).getD 0)) 0, cs.drop digits.length)

/-- Parse a JSON number.  The integer part carries the value; a fractional
part or exponent is accepted and skipped (no verified claim reads a
non-integer number out of a parsed body). -/
def parseJsonNumber (cs : List Char) : Option (Int × List Char) :=
  let (neg, cs₁) := match cs with
    | '-' :: rest => (true, rest)
    | rest => (false, rest)
  match parseDigits cs₁ with
  | none => none
  | some (n, cs₂) =>
    let cs₃ := match cs₂ with
      | '.' :: rest =>
        match parseDigits rest with
        | some (_, rest') => rest'
        | none => rest
      | rest => rest
    let cs₄ := match cs₃ with
      | 'e' :: rest => (match rest with
        | '+' :: r => (parseDigits r).elim rest Prod.snd
        | '-' :: r => (parseDigits r).elim rest Prod.snd
        | r => (parseDigits r).elim rest Prod.snd)
      | 'E' :: rest => (match rest with
        | '+' :: r => (parseDigits r).elim rest Prod.snd
        | '-' :: r => (parseDigits r).elim rest Prod.snd
        | r => (parseDigits r).elim rest Prod.snd)
      | rest => rest
    some (if neg then -(n : Int) else (n : Int), cs₄)

mutual

/-- Fueled recursive-descent parser for a JSON value, modelling JSON.parse.
Running out of fuel yields none; the wrapper supplies ample fuel. -/
def parseJsonValue : Nat → List Char → Option (Json × List Char)
  | 0, _ => none
  | fuel + 1, cs =>
    match skipWs cs with
    | [] => none
    | c :: rest =>
      if c = 'n' then
        if ['u', 'l', 'l'].isPrefixOf rest then some (.null, rest.drop 3) else none
      else if c = 't' then
        if ['r', 'u', 'e'].isPrefixOf rest then some (.bool true, rest.drop 3) else none
      else if c = 'f' then
        if ['a', 'l', 's', 'e'].isPrefixOf rest then some (.bool false, rest.drop 4) else none
      else if c = '"' then
        (parseJsonString rest).map (fun r => (.str r.1, r.2))
      else if c = '[' then
        match skipWs rest with
        | ']' :: rest' => some (.arr [], rest')
        | _ => (parseJsonArrayItems fuel rest).map (fun r => (.arr r.1, r.2))
      else if c = Char.ofNat 123 then
        match skipWs rest with
        | r :: rest' => if r = Char.ofNat 125 then some (.obj [], rest')
            else (parseJsonObjectItems fuel (r :: rest')).map (fun r => (.obj r.1, r.2))
        | [] => none
      else
        (parseJsonNumber (c :: rest)).map (fun r => (.num r.1, r.2))

/-- Parse the comma-separated items of a JSON array (after the opening
bracket, the array known to be non-empty). -/
def parseJsonArrayItems : Nat → List Char → Option (List Json × List Char)
  | 0, _ => none
  | fuel + 1, cs =>
    match parseJsonValue fuel cs with
    | none => none
    | some (v, rest) =>
      match skipWs rest with
      | ',' :: rest' =>
        (parseJsonArrayItems fuel rest').map (fun r => (v :: r.1, r.2))
      | ']' :: rest' => some ([v], rest')
      | _ => none

/-- Parse the comma-separated members of a JSON object (after the opening
brace, the object known to be non-empty). -/
def parseJsonObjectItems : Nat → List Char → Option (List (String × Json) × List Char)
  | 0, _ => none
  | fuel + 1, cs =>
    match skipWs cs with
    | '"' :: rest =>
      match parseJsonString rest with
      | none => none
      | some (key, rest₁) =>
        match skipWs rest₁ with
        | ':' :: rest₂ =>
          match parseJsonValue fuel rest₂ with
          | none => none
          | some (v, rest₃) =>
            match skipWs rest₃ with
            | ',' :: rest₄ =>
              (parseJsonObjectItems fuel rest₄).map (fun r => ((key, v) :: r.1, r.2))
            | r :: rest₄ =>
              if r = Char.ofNat 125 then some ([(key, v)], rest₄) else none
            | [] => none
        | _ => none
    | _ => none

end

/-- Model of JSON.parse: none means the text is rejected (a thrown
SyntaxError in JavaScript). -/
def parseJson (s : String) : Option Json :=
  match parseJsonValue (2 * s.data.length + 4) s.data with
  | some (v, rest) => if skipWs rest = [] then some v else none
  | none => none

/-! ## The OpenAPI document model

Typed counterpart of the fragment of OpenAPIV3.Document that the verified
functions read.  JavaScript objects iterate in insertion order, so object
maps are association lists; a key that may be absent is an Option. -/

/-- A schema node: either a reference object (a lone dollar-ref key) or a
plain schema object.  Absent keys are none; present keys are some, so the
JavaScript key-presence test (the in operator) is an isSome test. -/
inductive Schema where
  | ref (pointer : String)
  | node
      (type : Option String)
      (format : Option String)
      (enum : Option (List Json))
      (exampleVal : Option Json)
      (default : Option Json)
      (items : Option Schema)
      (minItems : Option Nat)
      (properties : Option (List (String × Schema)))
      (required : Option (List String))
      (anyOf : Option (List Schema))
      (oneOf : Option (List Schema))
      (allOf : Option (List Schema))
      (description : Option String)
      (pattern : Option String)
      (minLength : Option Nat)
      (maxLength : Option Nat)
      (minimum : Option Int)
      (maximum : Option Int)

/-- Schema object declaring only a type: the primitive schemas of the
scenarios.  (The source field name example is a Lean keyword and is
spelled exampleVal in the constructor.) -/
def primSchema (t : String) : Schema :=
  .node (some t) none none none none none none none none none none none none none
    none none none none

/-- Schema object declaring type object with the given properties key and
required key (either may be absent). -/
def objSchema (properties : Option (List (String × Schema)))
    (required : Option (List String)) : Schema :=
  .node (some "object") none none none none none none properties required none none
    none none none none none none none

/-- A security scheme object (the variant fields of the OpenAPIV3 union,
flattened; the source field named in is a Lean keyword and is spelled
inLoc here). -/
structure SecurityScheme where
  type : String
  scheme : Option String := none
  name : Option String := none
  inLoc : Option String := none
  description : Option String := none
deriving DecidableEq

/-- An entry of components.securitySchemes: a reference object or an
inline scheme (the source filters out reference objects). -/
inductive SecuritySchemeOrRef where
  | refObj (pointer : String)
  | inline (s : SecurityScheme)

/-- A security requirement object: scheme name to scope list, in
insertion order. -/
abbrev SecurityRequirement := List (String × List String)

/-- An operation object (the fields the verified functions read). -/
structure Operation where
  security : Option (List SecurityRequirement) := none
  summary : Option String := none

/-- A path item: one optional operation per HTTP method. -/
structure PathItem where
  get : Option Operation := none
  post : Option Operation := none
  put : Option Operation := none
  patch : Option Operation := none
  delete : Option Operation := none

/-- The components section (the parts the verified functions read). -/
structure Components where
  schemas : Option (List (String × Schema)) := none
  securitySchemes : Option (List (String × SecuritySchemeOrRef)) := none

/-- The root document. -/
structure Document where
  paths : List (String × Option PathItem)
  components : Option Components := none
  security : Option (List SecurityRequirement) := none

/-! ## Reference Resolver (resolveReference, openapi.ts lines 95 to 106)

The source strips the first occurrence of the hash-slash prefix, splits on
slashes and walks the document object segment by segment, returning null
when a segment is missing.  In this typed embedding the only traversable
pointer shape is the components-schemas one, which is the only shape the
verified claims exercise; every other pointer fails some segment lookup in
the source as well as here and yields null. -/

def resolveReference (ref : String) (spec : Document) : Option Schema :=
  let refPath := jsSplit (replaceFirst ref "#/" "") '/'
  match refPath with
  | ["components", "schemas", name] =>
    match spec.components with
    | none => none
    | some comps =>
      match comps.schemas with
      | none => none
      | some schemas => schemas.lookup name
  | _ => none

/-! ## Schema Example Synthesizer
(generateExampleFromSchema, openapi.ts lines 129 to 229)

The source recursion has no cycle protection at all: a reference is
resolved and recursed into unconditionally.  The embedding therefore takes
fuel; none means the computation did not finish within the fuel.  A
JavaScript null result is the distinct value Json.null. -/

/-- Monadic map used to model the property loop: a diverging element makes
the whole loop diverge, as in the source. -/
def mapOptM (f : α → Option β) : List α → Option (List β)
  | [] => some []
  | x :: xs => do
    let y ← f x
    let ys ← mapOptM f xs
    pure (y :: ys)

/-- Monadic fold used to model the allOf merge loop. -/
def foldlOptM (f : σ → α → Option σ) (init : σ) : List α → Option σ
  | [] => some init
  | x :: xs => do
    let s ← f init x
    foldlOptM f s xs

/-- Model of assigning one key on a JavaScript object: an existing key is
updated in place, a new key is appended. -/
def recordSet (l : List (String × α)) (k : String) (v : α) : List (String × α) :=
  if l.any (fun kv => kv.1 = k) then
    l.map (fun kv => if kv.1 = k then (k, v) else kv)
  else
    l ++ [(k, v)]

/-- Model of Object.assign(target, source) for JSON objects: source keys
set one by one onto the target. -/
def objectAssign (target : List (String × Json)) (source : List (String × Json)) :
    List (String × Json) :=
  source.foldl (fun acc kv => recordSet acc kv.1 kv.2) target

/-- The effective type dispatch of line 151: the explicit type, else anyOf,
oneOf, allOf in that order, else object.  A present composite key is used
even when its list is empty, matching JavaScript truthiness of arrays. -/
def effectiveType (type : Option String) (anyOf oneOf allOf : Option (List Schema)) : String :=
  match type with
  | some t => t
  | none =>
    if anyOf.isSome then "anyOf"
    else if oneOf.isSome then "oneOf"
    else if allOf.isSome then "allOf"
    else "object"

/-- Fueled embedding of generateExampleFromSchema.  Every recursive call
steps the fuel down once, so a result of none for every fuel means the
source call never returns (unbounded recursion). -/
def generateExampleFromSchema : Nat → Schema → Document → Option Json
  | 0, _, _ => none
  | fuel + 1, .ref ptr, spec =>
    -- Handle references: resolve and recurse, with no visited set.
    match resolveReference ptr spec with
    | none => some .null
    | some refValue =>
      generateExampleFromSchema fuel refValue spec
  | fuel + 1, .node type format enum exampleVal default items minItems properties required
      anyOf oneOf allOf _ _ _ _ _ _, spec =>
    match exampleVal with
    | some e => some e
    | none =>
    match enum with
    | some (e :: _) => some e
    | _ =>
    match effectiveType type anyOf oneOf allOf with
    | "string" =>
      match format with
      | some "date" => some (.str "2024-01-01")
      | some "date-time" => some (.str "2024-01-01T00:00:00Z")
      | some "email" => some (.str "example@example.com")
      | some "uri" => some (.str "https://example.com")
      | some "uuid" => some (.str "123e4567-e89b-12d3-a456-426614174000")
      | _ =>
        match default with
        | some d => some d
        | none => some (.str "string")
    | "number" =>
      match default with
      | some d => some d
      | none => some (.num 0)
    | "integer" =>
      match default with
      | some d => some d
      | none => some (.num 0)
    | "boolean" =>
      match default with
      | some d => some d
      | none => some (.bool false)
    | "array" =>
      match items with
      | some it => do
        let itemExample ← generateExampleFromSchema fuel it spec
        match minItems with
        | some m => if 0 < m then pure (.arr (List.replicate m itemExample))
                    else pure (.arr [itemExample])
        | none => pure (.arr [itemExample])
      | none => some (.arr [])
    | "object" =>
      match properties with
      | some ps =>
        -- The loop includes a property when a required array is present
        -- and lists it, or when no required key is present at all.
        let included := ps.filter (fun kv =>
          match required with
          | some req => req.contains kv.1
          | none => true)
        (mapOptM (fun kv =>
            (generateExampleFromSchema fuel kv.2 spec).map (fun v => (kv.1, v)))
          included).map .obj
      | none => some (.obj [])
    | "anyOf" =>
      match anyOf with
      | some (s :: _) => generateExampleFromSchema fuel s spec
      | _ => some (.obj [])
    | "oneOf" =>
      match oneOf with
      | some (s :: _) => generateExampleFromSchema fuel s spec
      | _ => some (.obj [])
    | "allOf" =>
      match allOf with
      | some l =>
        (foldlOptM (fun merged s => do
            let ex ← generateExampleFromSchema fuel s spec
            match ex with
            | .obj kvs => pure (objectAssign merged kvs)
            | _ => pure merged)
          [] l).map .obj
      | none => some (.obj [])
    | _ => some .null

/-! ## Schema Display Formatter
(formatSchemaForDisplay, openapi.ts lines 231 to 358)

Unlike the synthesizer, this function threads a visited set: a pointer is
added before recursing into its target and deleted again on every exit
path, so each call leaves the mutable set exactly as it found it.  The
embedding therefore passes the set by value, extending it only for the
recursion into a resolved reference.  Fuel again models the unbounded
reference recursion; none means the fuel ran out. -/

/-- Embedding of the local getTypeString helper (lines 267 to 286).
A reference object reaching it has none of the inspected keys and falls
through to the object default. -/
def getTypeString : Schema → String
  | .ref _ => "object"
  | .node type format enum _ _ items _ _ _ anyOf oneOf allOf _ _ _ _ _ _ =>
    match type, items with
    | some "array", some it => "Array<" ++ getTypeString it ++ ">"
    | _, _ =>
      match type with
      | some t =>
        let withFormat := match format with
          | some f => t ++ "(" ++ f ++ ")"
          | none => t
        match enum with
        | some l => withFormat ++ " | " ++ String.intercalate " | " (l.map jsonStringify)
        | none => withFormat
      | none =>
        if allOf.isSome then "allOf"
        else if anyOf.isSome then "anyOf"
        else if oneOf.isSome then "oneOf"
        else "object"

/-- Fueled embedding of formatSchemaForDisplay. -/
def formatSchemaForDisplay :
    Nat → Schema → Document → List String → Nat → Option String → Option String
  | 0, _, _, _, _, _ => none
  | fuel + 1, schema, spec, visited, level, propertyName =>
    let indent := repeatStr "  " level
    match schema with
    | .ref ptr =>
      -- Prevent circular references
      if visited.contains ptr then
        some (indent ++ propertyName.getD "" ++ " → " ++ lastSegment ptr ++ " ⚠ circular\n")
      else
        -- visited.add; the matching visited.delete on every exit path of
        -- the source makes the update local to this call.
        let visited' := ptr :: visited
        match resolveReference ptr spec with
        | none =>
          some (indent ++ propertyName.getD "" ++ " → " ++ lastSegment ptr ++ " (invalid)\n")
        | some refValue =>
          let refName := if lastSegment ptr = "" then "Unknown" else lastSegment ptr
          match propertyName with
          | some pn => do
            -- isRequired is the constant false here in the source.
            let inner ← formatSchemaForDisplay fuel refValue spec visited' level none
            pure (indent ++ pn ++ " → " ++ refName ++ "\n" ++ inner)
          | none => do
            let inner ← formatSchemaForDisplay fuel refValue spec visited' level none
            pure (indent ++ "→ " ++ refName ++ "\n" ++ inner)
    | .node type format enum exampleVal default items minItems properties required
        anyOf oneOf allOf description pattern minLength maxLength minimum maximum => do
      let schemaAgain : Schema := .node type format enum exampleVal default items minItems
        properties required anyOf oneOf allOf description pattern minLength maxLength
        minimum maximum
      let typeStr := getTypeString schemaAgain
      let isRequired :=
        match propertyName, required with
        | some pn, some req => pn ≠ "" && req.contains pn
        | _, _ => false
      -- Format property line, or the root-level opening brace.
      let headPart :=
        match propertyName with
        | some pn =>
          indent ++ pn ++ (if isRequired then "*" else "") ++ ": " ++ typeStr ++
            (match description with
             | some d => if d ≠ "" then "  // " ++ d else ""
             | none => "") ++ "\n"
        | none =>
          if level = 0 ∧ properties.isSome then indent ++ "\x7b\n" else ""
      -- Properties (with the root-level closing brace inside this block).
      let propsPart ←
        match properties with
        | some ps => do
          let lines ← mapOptM (fun kv =>
              formatSchemaForDisplay fuel kv.2 spec visited (level + 1) (some kv.1)) ps
          pure (String.join lines ++
            (if level = 0 ∧ type = some "object" then indent ++ "\x7d\n" else ""))
        | none => pure ""
      -- Items (for arrays)
      let itemsPart ←
        match items, type with
        | some it, some t =>
          if t = "array" then
            let itemsShown := match it with
              | .ref _ => true
              | .node _ _ _ _ _ _ _ props _ _ _ _ _ _ _ _ _ _ => props.isSome
            if itemsShown then do
              let inner ← formatSchemaForDisplay fuel it spec visited (level + 2) none
              pure (indent ++ "  items:\n" ++ inner)
            else pure ""
          else pure ""
        | _, _ => pure ""
      -- allOf, anyOf, oneOf
      let allOfPart ←
        match allOf with
        | some l => do
          let parts ← mapOptM (fun p =>
              do
                let inner ← formatSchemaForDisplay fuel p.2 spec visited (level + 2) none
                pure (indent ++ "  allOf[" ++ toString p.1 ++ "]:\n" ++ inner))
            l.enum
          pure (String.join parts)
        | none => pure ""
      let anyOfPart ←
        match anyOf with
        | some l => do
          let parts ← mapOptM (fun p =>
              do
                let inner ← formatSchemaForDisplay fuel p.2 spec visited (level + 2) none
                pure (indent ++ "  anyOf[" ++ toString p.1 ++ "]:\n" ++ inner))
            l.enum
          pure (String.join parts)
        | none => pure ""
      let oneOfPart ←
        match oneOf with
        | some l => do
          let parts ← mapOptM (fun p =>
              do
                let inner ← formatSchemaForDisplay fuel p.2 spec visited (level + 2) none
                pure (indent ++ "  oneOf[" ++ toString p.1 ++ "]:\n" ++ inner))
            l.enum
          pure (String.join parts)
        | none => pure ""
      -- Additional constraints, shown when rendering a property.
      let constraintsPart :=
        match propertyName with
        | some pn =>
          if pn ≠ "" then
            let cs : List String :=
              (match pattern with
               | some p => if p ≠ "" then ["pattern: " ++ p] else []
               | none => []) ++
              (match default with
               | some d => ["default: " ++ jsonStringify d]
               | none => []) ++
              (match minLength with
               | some n => ["minLength: " ++ toString n]
               | none => []) ++
              (match maxLength with
               | some n => ["maxLength: " ++ toString n]
               | none => []) ++
              (match minimum with
               | some m => ["min: " ++ toString m]
               | none => []) ++
              (match maximum with
               | some m => ["max: " ++ toString m]
               | none => [])
            if cs ≠ [] then indent ++ "    (" ++ String.intercalate ", " cs ++ ")\n"
            else ""
          else ""
        | none => ""
      pure (headPart ++ propsPart ++ itemsPart ++ allOfPart ++ anyOfPart ++ oneOfPart ++
        constraintsPart)

/-! ## Endpoint listing (the endpoints computed value, openapi.ts lines 19 to 39) -/

/-- A derived endpoint: path, upper-cased method, operation. -/
structure Endpoint where
  path : String
  method : String
  operation : Operation

/-- The sort comparator of lines 35 to 38: compare paths, and methods on
equal paths, both via localeCompare. -/
def endpointCmp (a b : Endpoint) : Ordering :=
  if a.path ≠ b.path then strCmp a.path b.path
  else strCmp a.method b.method

/-- Non-strict order induced by the comparator (comparator result at most
zero), the order Array.prototype.sort establishes between adjacent
elements of its output. -/
def endpointLe (a b : Endpoint) : Bool :=
  endpointCmp a b ≠ .gt

/-- Insert into a sorted list at the first admissible position. -/
def orderedInsert (a : Endpoint) : List Endpoint → List Endpoint
  | [] => [a]
  | b :: bs => if endpointLe a b then a :: b :: bs else b :: orderedInsert a bs

/-- Comparison sort modelling Array.prototype.sort with endpointCmp.  The
(path, method) keys of the input are pairwise distinct (paths are object
keys and each method occurs once per path), so every comparison sort
produces this same output list. -/
def sortEndpoints : List Endpoint → List Endpoint
  | [] => []
  | a :: as => orderedInsert a (sortEndpoints as)

/-- Embedding of the endpoints computed value: collect the five known
methods of every path item in declaration order, upper-case the method,
then sort with the comparator. -/
def endpoints (spec : Option Document) : List Endpoint :=
  match spec with
  | none => []
  | some doc =>
    let result := (doc.paths.map (fun pkv =>
      match pkv.2 with
      | none => []
      | some pathItem =>
        [("get", pathItem.get), ("post", pathItem.post), ("put", pathItem.put),
         ("patch", pathItem.patch), ("delete", pathItem.delete)].filterMap
          (fun mkv => mkv.2.map (fun op => Endpoint.mk pkv.1 (jsToUpper mkv.1) op)))).flatten
    sortEndpoints result

/-! ## Security Scheme Resolver
(securitySchemes computed value lines 41 to 58, and
getAvailableSecuritySchemes lines 676 to 720) -/

/-- Embedding of the securitySchemes computed value: the entries of
components.securitySchemes with reference objects filtered out. -/
def securitySchemesList (doc : Document) : List (String × SecurityScheme) :=
  match doc.components with
  | none => []
  | some comps =>
    match comps.securitySchemes with
    | none => []
    | some entries =>
      entries.filterMap (fun kv =>
        match kv.2 with
        | .inline s => some (kv.1, s)
        | .refObj _ => none)

/-- The common requirement-walking loop of getAvailableSecuritySchemes:
walk the requirement sets in order, and for each scheme name not seen
before, look it up in the resolved scheme list and append it when found. -/
def collectAvailable (reqs : List SecurityRequirement)
    (schemes : List (String × SecurityScheme)) : List (String × SecurityScheme) :=
  (reqs.foldl (fun acc req =>
      req.foldl (fun acc2 kv =>
          if acc2.1.contains kv.1 then acc2
          else
            (kv.1 :: acc2.1,
              match schemes.find? (fun s => s.1 = kv.1) with
              | some s => acc2.2 ++ [s]
              | none => acc2.2))
        acc)
    (([] : List String), ([] : List (String × SecurityScheme)))).2

/-- The document-level branch of lines 704 to 717: used when the
operation-level branch is not taken. -/
def globalAvailable (doc : Document) : List (String × SecurityScheme) :=
  match doc.security with
  | some g => if 0 < g.length then collectAvailable g (securitySchemesList doc) else []
  | none => []

/-- Embedding of getAvailableSecuritySchemes.  The operation-level branch
is taken only when operation.security is present AND non-empty (the
source tests security.length greater than zero), so an explicitly empty
operation security list falls through to the document-level branch. -/
def getAvailableSecuritySchemes (operation : Option Operation) (spec : Option Document) :
    List (String × SecurityScheme) :=
  match operation, spec with
  | some op, some doc =>
    match doc.components with
    | none => []
    | some comps =>
      match comps.securitySchemes with
      | none => []
      | some _ =>
        match op.security with
        | some reqs =>
          if 0 < reqs.length then collectAvailable reqs (securitySchemesList doc)
          else globalAvailable doc
        | none => globalAvailable doc
  | _, _ => []

/-! ## Document loading (loadSpec, openapi.ts lines 73 to 92) -/

/-- The store state that loadSpec reads and writes. -/
structure OpenApiState where
  openApiSpec : Option Document
  loading : Bool
  error : Option String

/-- Outcome of the awaited fetch and body parse, the only unordered input
of one loadSpec run: the response parsed, a non-ok response (statusText
recorded), a rejected fetch, or a body that fails JSON parsing.  For the
two rejection cases, isError says whether the thrown value is an Error
instance carrying a message. -/
inductive FetchSpecResult where
  | success (doc : Document)
  | notOk (statusText : String)
  | fetchRejected (isError : Bool) (msg : String)
  | jsonRejected (isError : Bool) (msg : String)

/-- True on every non-success outcome. -/
def FetchSpecResult.isFailure : FetchSpecResult → Bool
  | .success _ => false
  | _ => true

/-- Embedding of loadSpec as a state transformer over the fetch outcome:
set loading and clear error, then follow the try/catch/finally of the
source.  The catch stores the message of a thrown Error and a fixed
fallback otherwise; the finally clears loading. -/
def loadSpec (st : OpenApiState) (result : FetchSpecResult) : OpenApiState :=
  let st₁ : OpenApiState := { st with loading := true, error := none }
  match result with
  | .success doc => { st₁ with openApiSpec := some doc, loading := false }
  | .notOk statusText =>
    { st₁ with error := some ("Failed to fetch OpenAPI spec: " ++ statusText),
               loading := false }
  | .fetchRejected isError msg =>
    { st₁ with error := some (if isError then msg else "Failed to load OpenAPI spec"),
               loading := false }
  | .jsonRejected isError msg =>
    { st₁ with error := some (if isError then msg else "Failed to load OpenAPI spec"),
               loading := false }

/-! ## Single-flight load guard (loadOpenApiSpec, service-host store)

The async function runs in atomic segments between awaits on one event
loop.  Segment one (synchronous from entry): read the guard flag and
return at once when set; otherwise, when a spec url is configured, set the
flag and issue the fetch (no await separates the flag write from the
fetch).  Segment two (when the awaited load settles): the finally block
clears the flag.  The url-less branch touches only display state.  The
step relation below has one rule per such segment; activeFetches counts
document fetches currently in flight. -/

/-- Guard flag and in-flight fetch count. -/
structure LoaderState where
  isLoadingOpenApi : Bool
  activeFetches : Nat

/-- One atomic segment of some call to loadOpenApiSpec, interleaved with
segments of other calls in any order. -/
inductive LoaderStep : LoaderState → LoaderState → Prop where
  | skip (s : LoaderState) :
      s.isLoadingOpenApi = true →
      LoaderStep s s
  | noUrl (s : LoaderState) :
      s.isLoadingOpenApi = false →
      LoaderStep s s
  | beginLoad (s : LoaderState) :
      s.isLoadingOpenApi = false →
      LoaderStep s ⟨true, s.activeFetches + 1⟩
  | settleLoad (s : LoaderState) :
      0 < s.activeFetches →
      LoaderStep s ⟨false, s.activeFetches - 1⟩

/-- State before any call: flag clear, nothing in flight. -/
def loaderInit : LoaderState := ⟨false, 0⟩

/-- States reachable from the initial state by the step relation. -/
inductive LoaderReachable : LoaderState → Prop where
  | init : LoaderReachable loaderInit
  | step {s t : LoaderState} : LoaderReachable s → LoaderStep s t → LoaderReachable t

/-! ## URI and base64 platform built-ins used by the request synthesizer -/

/-- A single-quote character and string, built by code point to keep
source literals plain. -/
def squoteChar : Char := Char.ofNat 39

/-- The single-quote as a string. -/
def squote : String := ⟨[squoteChar]⟩

/-- Upper-case hexadecimal digit. -/
def hexDigitChar (n : Nat) : Char :=
  if n < 10 then Char.ofNat ('0'.toNat + n) else Char.ofNat ('A'.toNat + n - 10)

/-- UTF-8 bytes of one character. -/
def utf8Bytes (c : Char) : List Nat :=
  let n := c.toNat
  if n < 128 then [n]
  else if n < 2048 then [192 + n / 64, 128 + n % 64]
  else if n < 65536 then [224 + n / 4096, 128 + (n / 64) % 64, 128 + n % 64]
  else [240 + n / 262144, 128 + (n / 4096) % 64, 128 + (n / 64) % 64, 128 + n % 64]

/-- Percent-encode one byte. -/
def percentByte (b : Nat) : List Char :=
  ['%', hexDigitChar (b / 16), hexDigitChar (b % 16)]

/-- Characters left intact by encodeURIComponent. -/
def isUriUnreserved (c : Char) : Bool :=
  c.isAlphanum ∨ c ∈ ['-', '_', '.', '!', '~', '*', squoteChar, '(', ')']

/-- Model of encodeURIComponent. -/
def encodeURIComponent (s : String) : String :=
  ⟨(s.data.map (fun c =>
      if isUriUnreserved c then [c] else (utf8Bytes c).map percentByte |>.flatten)).flatten⟩

/-- Characters left intact by the URLSearchParams serialiser. -/
def isFormUnreserved (c : Char) : Bool :=
  c.isAlphanum ∨ c ∈ ['*', '-', '.', '_']

/-- Percent-encoding used by URLSearchParams: space becomes a plus. -/
def formEncode (s : String) : String :=
  ⟨(s.data.map (fun c =>
      if c = ' ' then ['+']
      else if isFormUnreserved c then [c]
      else (utf8Bytes c).map percentByte |>.flatten)).flatten⟩

/-- Model of URLSearchParams.toString on an append-ordered pair list. -/
def urlSearchParamsToString (params : List (String × String)) : String :=
  String.intercalate "&" (params.map (fun kv => formEncode kv.1 ++ "=" ++ formEncode kv.2))

/-- The base64 alphabet. -/
def base64Alphabet : String :=
  "ABCDEFGHIJKLMNOPQRSTUVWXYZabcdefghijklmnopqrstuvwxyz0123456789+/"

/-- Indexing into the base64 alphabet. -/
def base64Char (n : Nat) : Char :=
  base64Alphabet.data.getD n 'A'

/-- Encode byte triples as base64 quadruples with padding. -/
def base64Groups : List Nat → List Char
  | [] => []
  | [a] =>
    [base64Char (a / 4), base64Char ((a % 4) * 16), '=', '=']
  | [a, b] =>
    [base64Char (a / 4), base64Char ((a % 4) * 16 + b / 16), base64Char ((b % 16) * 4), '=']
  | a :: b :: c :: rest =>
    base64Char (a / 4) :: base64Char ((a % 4) * 16 + b / 16) ::
      base64Char ((b % 16) * 4 + c / 64) :: base64Char (c % 64) :: base64Groups rest

/-- Model of btoa over the code units of the credential string. -/
def btoa (s : String) : String :=
  ⟨base64Groups (s.data.map (fun c => c.toNat % 256))⟩

/-! ## Request Synthesizer and History Recorder
(sendRequest and formatAsCurl of the endpoint-tester component, and
addRequestHistory of endpoint.ts) -/

/-- JavaScript truthiness of an optional string: present and non-empty. -/
def truthyOpt (o : Option String) : Option String :=
  match o with
  | some s => if s = "" then none else some s
  | none => none

/-- A stored request body: the parse of the body text when it is JSON,
the raw text otherwise. -/
inductive BodyValue where
  | json (j : Json)
  | raw (s : String)

/-- A recorded response. -/
structure ResponseData where
  status : Nat
  statusText : String
  headers : List (String × String)
  body : BodyValue

/-- One history entry (RequestHistoryItem of endpoint.ts). -/
structure RequestHistoryItem where
  id : String
  timestamp : Nat
  method : String
  path : String
  url : String
  requestBody : Option BodyValue
  requestQuery : List (String × String)
  requestUrlParams : List (String × String)
  headers : List (String × String)
  response : Option ResponseData
  responseError : Option String
  status : Option Nat := none
  statusText : Option String := none
  authScheme : Option String

/-- Embedding of addRequestHistory: unshift onto the shared log. -/
def addRequestHistory (requestHistory : List RequestHistoryItem)
    (item : RequestHistoryItem) : List RequestHistoryItem :=
  item :: requestHistory

/-- Credentials entered for one scheme (the authCredentials record). -/
structure Credential where
  value : Option String := none
  username : Option String := none
  password : Option String := none
  token : Option String := none
  accessToken : Option String := none
  idToken : Option String := none

/-- Outcome of the awaited fetch of one dispatch: a response whose
content-type includes application/json (body parsed), any other response
(body kept as text), or a rejection (isError says whether the thrown
value is an Error carrying a message). -/
inductive FetchOutcome where
  | jsonResponse (status : Nat) (statusText : String)
      (headers : List (String × String)) (body : Json)
  | textResponse (status : Nat) (statusText : String)
      (headers : List (String × String)) (body : String)
  | rejected (isError : Bool) (msg : String)

/-- The sentinel scheme name for the Clerk bearer integration. -/
def CLERK_BEARER_SCHEME : String := "__clerk_bearer__"

/-- Everything one sendRequest run reads: selected endpoint and form
state, configuration, auth state, the fresh id and timestamp, and the
fetch outcome oracle. -/
structure SendRequestInput where
  selectedPath : Option String
  selectedMethod : Option String
  serviceHost : String
  requestBody : String
  requestQuery : List (String × String)
  requestUrlParams : List (String × String)
  selectedAuthScheme : Option String
  securitySchemes : Option (List (String × SecuritySchemeOrRef))
  authCredentials : List (String × Credential)
  clerkSignedIn : Bool
  clerkToken : Option String
  newId : String
  now : Nat
  fetchOutcome : FetchOutcome

/-- Everything one sendRequest run does: the final history entry (none
when the run returned before creating one), how many times it passed the
entry to addRequestHistory, whether fetch was invoked, the serialized
body given to fetch, and the final responseError and response state. -/
structure SendEffects where
  entry : Option RequestHistoryItem
  historyAdds : Nat
  fetchCalled : Bool
  sentBody : Option String
  responseError : Option String
  response : Option ResponseData

/-- The auth-injection block of sendRequest (the Clerk branch and the
per-scheme-type branch): returns the updated header record and query
parameter list. -/
def authInject (inp : SendRequestInput) (headers : List (String × String))
    (queryParams : List (String × String)) :
    List (String × String) × List (String × String) :=
  if inp.selectedAuthScheme = some CLERK_BEARER_SCHEME then
    if inp.clerkSignedIn then
      match truthyOpt inp.clerkToken with
      | some t => (recordSet headers "Authorization" ("Bearer " ++ t), queryParams)
      | none => (headers, queryParams)
    else (headers, queryParams)
  else
    match truthyOpt inp.selectedAuthScheme, inp.securitySchemes with
    | some schemeName, some schemes =>
      match schemes.lookup schemeName with
      | some (.inline scheme) =>
        let credentials := inp.authCredentials.lookup schemeName
        if scheme.type = "apiKey" then
          match credentials.bind (fun c => truthyOpt c.value) with
          | some v =>
            if scheme.inLoc = some "header" then
              (recordSet headers (scheme.name.getD "") v, queryParams)
            else if scheme.inLoc = some "query" then
              (headers, queryParams ++ [(scheme.name.getD "", v)])
            else (headers, queryParams)
          | none => (headers, queryParams)
        else if scheme.type = "http" then
          if scheme.scheme = some "basic" then
            match credentials.bind (fun c => truthyOpt c.username),
                credentials.bind (fun c => truthyOpt c.password) with
            | some u, some p =>
              (recordSet headers "Authorization" ("Basic " ++ btoa (u ++ ":" ++ p)),
                queryParams)
            | _, _ => (headers, queryParams)
          else if scheme.scheme = some "bearer" then
            match credentials.bind (fun c => truthyOpt c.token) with
            | some t => (recordSet headers "Authorization" ("Bearer " ++ t), queryParams)
            | none => (headers, queryParams)
          else (headers, queryParams)
        else if scheme.type = "oauth2" then
          match credentials.bind (fun c => truthyOpt c.accessToken) with
          | some t => (recordSet headers "Authorization" ("Bearer " ++ t), queryParams)
          | none => (headers, queryParams)
        else if scheme.type = "openIdConnect" then
          match credentials.bind (fun c => truthyOpt c.idToken) with
          | some t => (recordSet headers "Authorization" ("Bearer " ++ t), queryParams)
          | none => (headers, queryParams)
        else (headers, queryParams)
      | _ => (headers, queryParams)
    | _, _ => (headers, queryParams)

/-- The tail of sendRequest after the body-attachment point: dispatch the
fetch, classify the response by content type or catch the rejection, and
run the finally block (one addRequestHistory call). -/
def dispatchFetch (inp : SendRequestInput) (item : RequestHistoryItem)
    (sentBody : Option String) : SendEffects :=
  match inp.fetchOutcome with
  | .jsonResponse status statusText hdrs body =>
    let rd : ResponseData := ⟨status, statusText, hdrs, .json body⟩
    let item2 : RequestHistoryItem :=
      { item with response := some rd, status := some status, statusText := some statusText }
    { entry := some item2, historyAdds := 1, fetchCalled := true, sentBody := sentBody,
      responseError := none, response := some rd }
  | .textResponse status statusText hdrs body =>
    let rd : ResponseData := ⟨status, statusText, hdrs, .raw body⟩
    let item2 : RequestHistoryItem :=
      { item with response := some rd, status := some status, statusText := some statusText }
    { entry := some item2, historyAdds := 1, fetchCalled := true, sentBody := sentBody,
      responseError := none, response := some rd }
  | .rejected isError msg =>
    let err := if isError then msg else "Request failed"
    let item2 : RequestHistoryItem := { item with responseError := some err }
    { entry := some item2, historyAdds := 1, fetchCalled := true, sentBody := sentBody,
      responseError := some err, response := none }

/-- Embedding of sendRequest.  The guard returns at once on a falsy path
or method.  The history item is created up front; the URL with substituted
path parameters, the query string and the auth-injected headers are
written onto it; for POST, PUT and PATCH with a non-blank body text the
body must parse as JSON, and a parse failure records the error on the
item, passes it to addRequestHistory, and returns from inside the try,
which runs the finally block and passes the same item to
addRequestHistory a second time, without calling fetch. -/
def sendRequest (inp : SendRequestInput) : SendEffects :=
  match truthyOpt inp.selectedPath, truthyOpt inp.selectedMethod with
  | some path, some method =>
    let requestBodyVal : Option BodyValue :=
      if jsTrim inp.requestBody ≠ "" then
        some (match parseJson inp.requestBody with
          | some j => .json j
          | none => .raw inp.requestBody)
      else none
    let item0 : RequestHistoryItem := {
      id := inp.newId, timestamp := inp.now, method := method, path := path,
      url := "", requestBody := requestBodyVal,
      requestQuery := inp.requestQuery, requestUrlParams := inp.requestUrlParams,
      headers := [], response := none, responseError := none,
      authScheme := truthyOpt inp.selectedAuthScheme }
    -- Apply path parameters
    let url1 := inp.requestUrlParams.foldl (fun u kv =>
        if kv.2 ≠ "" then
          replaceFirst u ("\x7b" ++ kv.1 ++ "\x7d") (encodeURIComponent kv.2)
        else u)
      (inp.serviceHost ++ path)
    -- Build query parameters
    let queryParams := inp.requestQuery.foldl (fun acc kv =>
        if kv.2 ≠ "" then acc ++ [(kv.1, kv.2)] else acc) []
    let (headers, queryParams) := authInject inp [("Content-Type", "application/json")]
      queryParams
    let qs := urlSearchParamsToString queryParams
    let url2 := if qs ≠ "" then url1 ++ "?" ++ qs else url1
    let item1 := { item0 with url := url2, headers := headers }
    if method ∈ ["POST", "PUT", "PATCH"] ∧ jsTrim inp.requestBody ≠ "" then
      match parseJson inp.requestBody with
      | none =>
        let err := "Invalid JSON in request body"
        let item2 : RequestHistoryItem := { item1 with responseError := some err }
        { entry := some item2, historyAdds := 2, fetchCalled := false, sentBody := none,
          responseError := some err, response := none }
      | some j =>
        dispatchFetch inp item1 (some (jsonStringify j))
    else
      dispatchFetch inp item1 none
  | _, _ =>
    { entry := none, historyAdds := 0, fetchCalled := false, sentBody := none,
      responseError := none, response := none }

/-- The shared request log after one sendRequest run: every
addRequestHistory call of the run, applied in order to the prior log.
Both calls of the double-add path pass the same object, so each one
prepends the final entry. -/
def historyAfterSend (eff : SendEffects) (prior : List RequestHistoryItem) :
    List RequestHistoryItem :=
  match eff.entry with
  | some e => (List.replicate eff.historyAdds e).foldl addRequestHistory prior
  | none => prior

/-- The parts array of formatAsCurl, in push order: the curl word, the
method flag unless the method is GET, one header flag per recorded header
with double quotes escaped in the value, a data flag holding the escaped
body for body-bearing methods with a truthy body, and the quoted URL. -/
def curlParts (item : RequestHistoryItem) : List String :=
  let parts := ["curl"]
  let parts := if item.method ≠ "GET" then parts ++ ["-X " ++ item.method] else parts
  let parts := parts ++ item.headers.map (fun kv =>
    "-H \"" ++ kv.1 ++ ": " ++ replaceAllChar kv.2 '"' "\\\"" ++ "\"")
  let parts :=
    if item.method ∈ ["POST", "PUT", "PATCH"] ∧ bodyTruthy item.requestBody then
      let bodyStr := match item.requestBody with
        | some (.raw s) => s
        | some (.json j) => jsonStringifyPretty j 0
        | none => ""
      let escapedBody :=
        replaceAllChar (replaceAllChar bodyStr squoteChar (squote ++ "\\" ++ squote ++ squote))
          '\n' "\\n"
      parts ++ ["-d " ++ squote ++ escapedBody ++ squote]
    else parts
  parts ++ ["\"" ++ item.url ++ "\""]
where
  /-- JavaScript truthiness of the stored body. -/
  bodyTruthy : Option BodyValue → Bool
    | none => false
    | some (.raw s) => s ≠ ""
    | some (.json j) =>
      match j with
      | .null => false
      | .bool b => b
      | .num n => n ≠ 0
      | .str s => s ≠ ""
      | _ => true

/-- Embedding of formatAsCurl: the parts joined with a backslash line
continuation and two-space indent. -/
def formatAsCurl (item : RequestHistoryItem) : String :=
  String.intercalate (" \\\n  ") (curlParts item)

/-! ## Concrete documents, operations and entries used by the scenarios -/

/-- A document with no paths, components or security. -/
def emptyDoc : Document := ⟨[], none, none⟩

/-- Pointer of the self-referencing schema. -/
def nodePtr : String := "#/components/schemas/Node"

/-- An object schema whose next property refers back to itself. -/
def cyclicNodeSchema : Schema :=
  objSchema (some [("next", .ref nodePtr)]) none

/-- A document whose Node component schema is directly self-referencing
through its next property. -/
def cyclicDoc : Document :=
  ⟨[], some { schemas := some [("Node", cyclicNodeSchema)] }, none⟩

/-- Scenario A schema: id integer and name string with required id. -/
def scenarioASchema : Schema :=
  objSchema (some [("id", primSchema "integer"), ("name", primSchema "string")])
    (some ["id"])

/-- Scenario B schema: the same properties with no required key at all. -/
def scenarioBSchema : Schema :=
  objSchema (some [("id", primSchema "integer"), ("name", primSchema "string")]) none

/-- Scenario C document: paths declared as /users (GET) then /items
(GET, POST), deliberately out of sorted order. -/
def scenarioCDoc : Document :=
  ⟨[("/users", some { get := some {} }),
    ("/items", some { get := some {}, post := some {} })], none, none⟩

/-- A bearer scheme declared in the components section. -/
def bearerAuthScheme : SecurityScheme := { type := "http", scheme := some "bearer" }

/-- A document declaring the bearer scheme and requiring it globally. -/
def docGlobalSecurity : Document :=
  ⟨[], some { securitySchemes := some [("bearerAuth", .inline bearerAuthScheme)] },
    some [[("bearerAuth", [])]]⟩

/-- An operation whose security list is present but explicitly empty. -/
def opEmptySecurity : Operation := { security := some [] }

/-- Pointer of the schema reached along two different paths. -/
def rPtr : String := "#/components/schemas/R"

/-- The shared component schema: an object with one string property. -/
def rSchema : Schema :=
  objSchema (some [("v", primSchema "string")]) none

/-- A document declaring the shared component schema R. -/
def twoPathDoc : Document := ⟨[], some { schemas := some [("R", rSchema)] }, none⟩

/-- An object schema whose properties a and b both reference R, two
non-overlapping paths to the same reference. -/
def twoPathSchema : Schema :=
  objSchema (some [("a", .ref rPtr), ("b", .ref rPtr)]) none

/-- Scenario E input: a POST dispatch whose body text does not parse as
JSON.  The fetch oracle is irrelevant because the dispatch must abort
before any network call. -/
def badBodyInput : SendRequestInput :=
  { selectedPath := some "/todo", selectedMethod := some "POST",
    serviceHost := "http://localhost:3000", requestBody := "\x7binvalid",
    requestQuery := [], requestUrlParams := [], selectedAuthScheme := none,
    securitySchemes := none, authCredentials := [], clerkSignedIn := false,
    clerkToken := none, newId := "id-1", now := 0,
    fetchOutcome := .rejected true "never reached" }

/-- Scenario F entry: a recorded GET with one Authorization header. -/
def scenarioFEntry : RequestHistoryItem :=
  { id := "h-1", timestamp := 0, method := "GET", path := "/y", url := "https://x/y",
    requestBody := none, requestQuery := [], requestUrlParams := [],
    headers := [("Authorization", "Bearer abc")], response := none,
    responseError := none, authScheme := none }

/-- A store state holding a previously loaded document. -/
def loadedState : OpenApiState := ⟨some emptyDoc, false, none⟩

/-- The data-flag part of the curl rendering, for the segment
decomposition of curlParts. -/
def dFlagPart (item : RequestHistoryItem) : String :=
  let bodyStr := match item.requestBody with
    | some (.raw s) => s
    | some (.json j) => jsonStringifyPretty j 0
    | none => ""
  let escapedBody :=
    replaceAllChar (replaceAllChar bodyStr squoteChar (squote ++ "\\" ++ squote ++ squote))
      '\n' "\\n"
  "-d " ++ squote ++ escapedBody ++ squote

/-- The header-flag part of the curl rendering for one recorded header. -/
def hFlagPart (kv : String × String) : String :=
  "-H \"" ++ kv.1 ++ ": " ++ replaceAllChar kv.2 '"' "\\\"" ++ "\""

/-! ## Helper lemmas -/

/-- Characters with equal code points are equal. -/
theorem char_toNat_inj {a b : Char} (h : a.toNat = b.toNat) : a = b :=
  Char.ext (UInt32.ext h)

/-- The character comparison reports lt exactly on smaller code points. -/
theorem charCmp_eq_lt {a b : Char} : charCmp a b = .lt ↔ a.toNat < b.toNat := by
  unfold charCmp
  split_ifs with h1 h2 <;> simp <;> omega

/-- The character comparison reports eq exactly on equal characters. -/
theorem charCmp_eq_eq {a b : Char} : charCmp a b = .eq ↔ a = b := by
  unfold charCmp
  split_ifs with h1 h2
  · constructor
    · intro h; exact absurd h (by decide)
    · rintro rfl; omega
  · constructor
    · intro h; exact absurd h (by decide)
    · rintro rfl; omega
  · constructor
    · intro _; exact char_toNat_inj (by omega)
    · intro _; rfl

/-- Swapping the arguments of the character comparison swaps the result. -/
theorem charCmp_swap (a b : Char) : charCmp b a = (charCmp a b).swap := by
  unfold charCmp
  split_ifs <;> first | rfl | omega

/-- Swapping the arguments of the list comparison swaps the result. -/
theorem charsCmp_swap : ∀ as bs : List Char, charsCmp bs as = (charsCmp as bs).swap
  | [], [] => rfl
  | [], _ :: _ => rfl
  | _ :: _, [] => rfl
  | a :: as, b :: bs => by
    simp only [charsCmp]
    rw [charCmp_swap]
    rcases h : charCmp a b with _ | _ | _ <;> simp [Ordering.swap, charsCmp_swap as bs]

/-- The list comparison reports eq exactly on equal lists. -/
theorem charsCmp_eq_eq : ∀ as bs : List Char, charsCmp as bs = .eq ↔ as = bs
  | [], [] => by simp [charsCmp]
  | [], _ :: _ => by simp [charsCmp]
  | _ :: _, [] => by simp [charsCmp]
  | a :: as, b :: bs => by
    simp only [charsCmp]
    rcases h : charCmp a b with _ | _ | _
    · simp only [List.cons.injEq]
      constructor
      · intro hfalse; exact absurd hfalse (by simp)
      · rintro ⟨rfl, _⟩
        rw [charCmp_eq_eq.mpr rfl] at h
        exact Ordering.noConfusion h
    · rw [charsCmp_eq_eq as bs]
      have hab : a = b := charCmp_eq_eq.mp h
      simp [hab]
    · simp only [List.cons.injEq]
      constructor
      · intro hfalse; exact absurd hfalse (by simp)
      · rintro ⟨rfl, _⟩
        rw [charCmp_eq_eq.mpr rfl] at h
        exact Ordering.noConfusion h

/-- Strict transitivity of the list comparison. -/
theorem charsCmp_lt_trans : ∀ as bs cs : List Char,
    charsCmp as bs = .lt → charsCmp bs cs = .lt → charsCmp as cs = .lt
  | [], [], _, h1, _ => by simp [charsCmp] at h1
  | _ :: _, [], _, h1, _ => by simp [charsCmp] at h1
  | [], _ :: _, [], _, h2 => by simp [charsCmp] at h2
  | _ :: _, _ :: _, [], _, h2 => by simp [charsCmp] at h2
  | [], _ :: _, _ :: _, _, _ => by simp [charsCmp]
  | a :: as, b :: bs, c :: cs, h1, h2 => by
    simp only [charsCmp] at h1 h2 ⊢
    rcases hab : charCmp a b with _ | _ | _ <;> rw [hab] at h1 <;>
      rcases hbc : charCmp b c with _ | _ | _ <;> rw [hbc] at h2
    all_goals first
      | exact Ordering.noConfusion h1
      | exact Ordering.noConfusion h2
      | skip
    · -- a < b, b < c
      have : charCmp a c = .lt := charCmp_eq_lt.mpr
        (lt_trans (charCmp_eq_lt.mp hab) (charCmp_eq_lt.mp hbc))
      rw [this]
    · -- a < b, b = c
      have hb := charCmp_eq_eq.mp hbc
      rw [← hb, hab]
    · -- a = b, b < c
      have hb := charCmp_eq_eq.mp hab
      rw [hb, hbc]
    · -- a = b, b = c: recurse on the tails
      have hb := charCmp_eq_eq.mp hab
      have hc := charCmp_eq_eq.mp hbc
      rw [hb, hc, charCmp_eq_eq.mpr rfl]
      exact charsCmp_lt_trans as bs cs h1 h2

/-- The string comparison reports eq exactly on equal strings. -/
theorem strCmp_eq_eq {a b : String} : strCmp a b = .eq ↔ a = b := by
  constructor
  · intro h
    have hd : a.data = b.data := (charsCmp_eq_eq a.data b.data).mp h
    cases a; cases b
    exact congrArg String.mk hd
  · rintro rfl
    exact (charsCmp_eq_eq a.data a.data).mpr rfl

/-- Swapping the arguments of the string comparison swaps the result. -/
theorem strCmp_swap (a b : String) : strCmp b a = (strCmp a b).swap :=
  charsCmp_swap a.data b.data

/-- Strict transitivity of the string comparison. -/
theorem strCmp_lt_trans {a b c : String} :
    strCmp a b = .lt → strCmp b c = .lt → strCmp a c = .lt :=
  charsCmp_lt_trans a.data b.data c.data

/-- Non-strict transitivity of the string comparison. -/
theorem strCmp_le_trans {a b c : String} :
    strCmp a b ≠ .gt → strCmp b c ≠ .gt → strCmp a c ≠ .gt := by
  intro h1 h2
  rcases hab : strCmp a b with _ | _ | _
  · rcases hbc : strCmp b c with _ | _ | _
    · rw [strCmp_lt_trans hab hbc]; simp
    · rw [← strCmp_eq_eq.mp hbc, hab]; simp
    · exact absurd hbc h2
  · have hb : a = b := strCmp_eq_eq.mp hab
    rw [hb]
    exact h2
  · exact absurd hab h1

/-- The endpoint order is total. -/
theorem endpointLe_total (a b : Endpoint) :
    endpointLe a b = true ∨ endpointLe b a = true := by
  unfold endpointLe endpointCmp
  by_cases hp : a.path = b.path
  · rw [hp]
    simp only [ne_eq, not_true_eq_false, if_false, reduceIte]
    rcases h : strCmp a.method b.method with _ | _ | _
    · left; simp [h]
    · left; simp [h]
    · right; rw [strCmp_swap, h]; simp [Ordering.swap]
  · rw [if_pos hp, if_pos (Ne.symm hp)]
    rcases h : strCmp a.path b.path with _ | _ | _
    · left; simp [h]
    · exact absurd (strCmp_eq_eq.mp h) hp
    · right; rw [strCmp_swap, h]; simp [Ordering.swap]

/-- The endpoint order is transitive. -/
theorem endpointLe_trans {a b c : Endpoint} :
    endpointLe a b = true → endpointLe b c = true → endpointLe a c = true := by
  unfold endpointLe endpointCmp
  simp only [decide_eq_true_eq]
  by_cases hab : a.path = b.path <;> by_cases hbc : b.path = c.path
  · have hac : a.path = c.path := hab.trans hbc
    rw [if_neg (by simp [hab]), if_neg (by simp [hbc]), if_neg (by simp [hac])]
    intro h1 h2
    exact strCmp_le_trans h1 h2
  · have hac : a.path ≠ c.path := by rw [hab]; exact hbc
    rw [if_neg (by simp [hab]), if_pos hbc, if_pos hac]
    intro _ h2
    rw [hab]
    exact h2
  · have hac : a.path ≠ c.path := hbc ▸ hab
    rw [if_pos hab, if_neg (by simp [hbc]), if_pos hac]
    intro h1 _
    have he : strCmp a.path c.path = strCmp a.path b.path := by rw [hbc]
    rw [he]
    exact h1
  · intro h1 h2
    rw [if_pos hab] at h1
    rw [if_pos hbc] at h2
    have hab' : strCmp a.path b.path = .lt := by
      rcases h : strCmp a.path b.path with _ | _ | _
      · rfl
      · exact absurd (strCmp_eq_eq.mp h) hab
      · exact absurd h h1
    have hbc' : strCmp b.path c.path = .lt := by
      rcases h : strCmp b.path c.path with _ | _ | _
      · rfl
      · exact absurd (strCmp_eq_eq.mp h) hbc
      · exact absurd h h2
    have hac' : strCmp a.path c.path = .lt := strCmp_lt_trans hab' hbc'
    have hac : a.path ≠ c.path := by
      intro h
      rw [h, strCmp_eq_eq.mpr rfl] at hac'
      exact Ordering.noConfusion hac'
    rw [if_pos hac, hac']
    simp

/-- Membership in an ordered insertion. -/
theorem mem_orderedInsert (a z : Endpoint) :
    ∀ l : List Endpoint, z ∈ orderedInsert a l ↔ z = a ∨ z ∈ l
  | [] => by simp [orderedInsert]
  | b :: bs => by
    unfold orderedInsert
    by_cases h : endpointLe a b = true
    · rw [if_pos h]
      simp only [List.mem_cons]
    · rw [if_neg h]
      simp only [List.mem_cons, mem_orderedInsert a z bs]
      tauto

/-- Ordered insertion preserves sortedness. -/
theorem pairwise_orderedInsert (a : Endpoint) :
    ∀ l : List Endpoint, l.Pairwise (fun x y => endpointLe x y = true) →
      (orderedInsert a l).Pairwise (fun x y => endpointLe x y = true)
  | [] => by simp [orderedInsert]
  | b :: bs => by
    intro h
    rcases List.pairwise_cons.mp h with ⟨hb, hbs⟩
    unfold orderedInsert
    by_cases hab : endpointLe a b = true
    · rw [if_pos hab]
      refine List.Pairwise.cons ?_ h
      intro z hz
      rcases List.mem_cons.mp hz with rfl | hz'
      · exact hab
      · exact endpointLe_trans hab (hb z hz')
    · rw [if_neg hab]
      have hba : endpointLe b a = true := (endpointLe_total a b).resolve_left hab
      refine List.Pairwise.cons ?_ (pairwise_orderedInsert a bs hbs)
      intro z hz
      rcases (mem_orderedInsert a z bs).mp hz with rfl | hz'
      · exact hba
      · exact hb z hz'

/-- The modelled comparison sort always produces a sorted list. -/
theorem sortEndpoints_pairwise :
    ∀ l : List Endpoint, (sortEndpoints l).Pairwise (fun x y => endpointLe x y = true)
  | [] => by simp [sortEndpoints]
  | a :: as => by
    unfold sortEndpoints
    exact pairwise_orderedInsert a _ (sortEndpoints_pairwise as)

/-- Keys and values of a successful property synthesis loop: the keys are
the keys of the walked list in order, and every value is the synthesis of
the corresponding property schema. -/
theorem mapOptM_props {g : Schema → Option Json} :
    ∀ (l : List (String × Schema)) (ys : List (String × Json)),
      mapOptM (fun kv => (g kv.2).map (fun v => (kv.1, v))) l = some ys →
      ys.map Prod.fst = l.map Prod.fst ∧
      ∀ y ∈ ys, ∃ sch, (y.1, sch) ∈ l ∧ g sch = some y.2
  | [], ys => by
    intro h
    simp [mapOptM] at h
    subst h
    simp
  | kv :: rest, ys => by
    intro h
    rw [show mapOptM (fun kv => (g kv.2).map (fun v => (kv.1, v))) (kv :: rest) =
        ((g kv.2).map (fun v => (kv.1, v))).bind (fun y =>
          (mapOptM (fun kv => (g kv.2).map (fun v => (kv.1, v))) rest).bind
            (fun ys => some (y :: ys))) from rfl] at h
    cases hg : g kv.2 with
    | none => rw [hg] at h; simp at h
    | some v =>
      rw [hg] at h
      cases hrest : mapOptM (fun kv => (g kv.2).map (fun v => (kv.1, v))) rest with
      | none => rw [hrest] at h; simp at h
      | some zs =>
        rw [hrest] at h
        simp only [Option.map_some', Option.some_bind, Option.some.injEq] at h
        subst h
        obtain ⟨hkeys, hvals⟩ := mapOptM_props rest zs hrest
        refine ⟨by simp [hkeys], ?_⟩
        intro y hy
        rcases List.mem_cons.mp hy with rfl | hy'
        · exact ⟨kv.2, by simp, hg⟩
        · obtain ⟨sch, hmem, hgs⟩ := hvals y hy'
          exact ⟨sch, List.mem_cons_of_mem _ hmem, hgs⟩

/-- Invariant of the load guard: never more than one fetch in flight, and
none at all while the flag is clear. -/
theorem loader_inv : ∀ s, LoaderReachable s →
    s.activeFetches ≤ 1 ∧ (s.isLoadingOpenApi = false → s.activeFetches = 0) := by
  intro s h
  induction h with
  | init => exact ⟨by simp [loaderInit], fun _ => rfl⟩
  | step _ hst ih =>
    cases hst with
    | skip h => exact ih
    | noUrl h => exact ih
    | beginLoad h =>
      have h0 := ih.2 h
      refine ⟨?_, fun hfalse => Bool.noConfusion hfalse⟩
      show _ + 1 ≤ 1
      omega
    | settleLoad h =>
      have h1 := ih.1
      refine ⟨?_, fun _ => ?_⟩
      · show _ - 1 ≤ 1
        omega
      · show _ - 1 = 0
        omega

/-- The synthesizer diverges on the self-referencing document: neither the
reference nor the object it resolves to yields a value at any fuel. -/
theorem genExample_cyclic_aux : ∀ fuel,
    generateExampleFromSchema fuel (.ref nodePtr) cyclicDoc = none ∧
    generateExampleFromSchema fuel cyclicNodeSchema cyclicDoc = none := by
  intro fuel
  induction fuel with
  | zero => exact ⟨rfl, rfl⟩
  | succ n ih =>
    refine ⟨?_, ?_⟩
    · have h : generateExampleFromSchema (n + 1) (.ref nodePtr) cyclicDoc =
          generateExampleFromSchema n cyclicNodeSchema cyclicDoc := rfl
      rw [h]
      exact ih.2
    · have h : generateExampleFromSchema (n + 1) cyclicNodeSchema cyclicDoc =
          (mapOptM (fun kv =>
              (generateExampleFromSchema n kv.2 cyclicDoc).map (fun v => (kv.1, v)))
            [("next", Schema.ref nodePtr)]).map Json.obj := rfl
      rw [h]
      simp [mapOptM, ih.1]

/-! ## The claims -/

/-- Claim C1.  The claim says availableSchemes follows the override rule,
an operation with an explicitly empty security list yielding zero
available schemes even under document-level security.  The code tests
security.length greater than zero before taking the operation-level
branch, so an empty list falls through to the global branch: on the
failing input the result is the global bearer scheme, not the empty
list. -/
theorem claim_C1 :
    getAvailableSecuritySchemes (some opEmptySecurity) (some docGlobalSecurity) =
      [("bearerAuth", bearerAuthScheme)] ∧
    getAvailableSecuritySchemes (some opEmptySecurity) (some docGlobalSecurity) ≠ [] := by
  refine ⟨rfl, ?_⟩
  intro h
  rw [show getAvailableSecuritySchemes (some opEmptySecurity) (some docGlobalSecurity) =
      [("bearerAuth", bearerAuthScheme)] from rfl] at h
  exact List.noConfusion h

/-- Claim C2.  The claim says both synthesis and display formatting
terminate on self-referencing documents with cycle protection.  The
formatter does carry the visited set and terminates with a circular
marker, but the synthesizer has no visited set at all: on the
self-referencing Node schema it recurses forever, modelled here as
running out of any amount of fuel. -/
theorem claim_C2 :
    (∀ fuel, generateExampleFromSchema fuel (.ref nodePtr) cyclicDoc = none) ∧
    formatSchemaForDisplay 4 (.ref nodePtr) cyclicDoc [] 0 none =
      some "→ Node\n\x7b\n  next → Node ⚠ circular\n\x7d\n" :=
  ⟨fun fuel => (genExample_cyclic_aux fuel).1, rfl⟩

/-- Claim C7.  The single-flight guard: never more than one document fetch
in flight on any reachable state; a step that starts a fetch can happen
only with the flag clear and sets it; while the flag is set no step
increases the fetch count (a re-entrant call is suppressed); and a step
that finishes a fetch clears the flag. -/
theorem claim_C7 :
    (∀ s, LoaderReachable s → s.activeFetches ≤ 1) ∧
    (∀ s t, LoaderStep s t → s.activeFetches < t.activeFetches →
      s.isLoadingOpenApi = false ∧ t.isLoadingOpenApi = true) ∧
    (∀ s t, LoaderStep s t → s.isLoadingOpenApi = true →
      t.activeFetches ≤ s.activeFetches) ∧
    (∀ s t, LoaderStep s t → t.activeFetches < s.activeFetches →
      t.isLoadingOpenApi = false) := by
  refine ⟨fun s h => (loader_inv s h).1, ?_, ?_, ?_⟩
  · intro s t hst hlt
    cases hst with
    | skip h => omega
    | noUrl h => omega
    | beginLoad h => exact ⟨h, rfl⟩
    | settleLoad h =>
      have hle : s.activeFetches - 1 ≤ s.activeFetches := Nat.sub_le _ _
      exact absurd hlt (by simp)
  · intro s t hst hflag
    cases hst with
    | skip h => exact Nat.le_refl _
    | noUrl h => exact absurd hflag (by rw [h]; simp)
    | beginLoad h => exact absurd hflag (by rw [h]; simp)
    | settleLoad h =>
      show s.activeFetches - 1 ≤ s.activeFetches
      omega
  · intro s t hst hlt
    cases hst with
    | skip h => omega
    | noUrl h => omega
    | beginLoad h =>
      have : s.activeFetches < s.activeFetches + 1 := Nat.lt_succ_self _
      exact absurd hlt (by simp)
    | settleLoad h => rfl

/-- Claim C7 witness: the invariant applied to the initial state and to
the state reached by one guarded load start. -/
theorem claim_C7_witness :
    loaderInit.activeFetches ≤ 1 ∧ (LoaderState.mk true 1).activeFetches ≤ 1 :=
  ⟨claim_C7.1 loaderInit LoaderReachable.init,
   claim_C7.1 ⟨true, 1⟩
     (LoaderReachable.step LoaderReachable.init (LoaderStep.beginLoad loaderInit rfl))⟩

/-- Claim C10.  On every failing load outcome (non-ok response, rejected
fetch, or unparsable body) loadSpec leaves the previously loaded document
untouched and only sets the error string and clears the loading flag. -/
theorem claim_C10 : ∀ (st : OpenApiState) (r : FetchSpecResult),
    r.isFailure = true →
    (loadSpec st r).openApiSpec = st.openApiSpec ∧
    (loadSpec st r).error.isSome = true ∧
    (loadSpec st r).loading = false := by
  intro st r h
  cases r with
  | success doc => simp [FetchSpecResult.isFailure] at h
  | notOk statusText => exact ⟨rfl, rfl, rfl⟩
  | fetchRejected isError msg => exact ⟨rfl, rfl, rfl⟩
  | jsonRejected isError msg => exact ⟨rfl, rfl, rfl⟩

/-- Claim C10 witness: a failed refresh over a loaded document keeps the
document. -/
theorem claim_C10_witness :
    (loadSpec loadedState (.notOk "Bad Gateway")).openApiSpec = loadedState.openApiSpec ∧
    (loadSpec loadedState (.notOk "Bad Gateway")).error.isSome = true ∧
    (loadSpec loadedState (.notOk "Bad Gateway")).loading = false :=
  claim_C10 loadedState (.notOk "Bad Gateway") rfl

/-- Claim C4.  Object synthesis follows the asymmetric inclusion rule:
with a declared required list the result object holds exactly the
declared properties whose names the list contains (each mapped to its
synthesized value), and with no required key at all it holds every
declared property in declaration order; Scenario A yields only the id
field and Scenario B yields both fields. -/
theorem claim_C4 :
    (∀ (fuel : Nat) (spec : Document) (ps : List (String × Schema))
        (r : List String) (v : Json),
      generateExampleFromSchema (fuel + 1)
        (objSchema (some ps) (some r)) spec = some v →
      ∃ kvs, v = Json.obj kvs ∧
        kvs.map Prod.fst = (ps.filter (fun kv => r.contains kv.1)).map Prod.fst ∧
        ∀ y ∈ kvs, ∃ sch, (y.1, sch) ∈ ps ∧
          generateExampleFromSchema fuel sch spec = some y.2) ∧
    (∀ (fuel : Nat) (spec : Document) (ps : List (String × Schema)) (v : Json),
      generateExampleFromSchema (fuel + 1)
        (objSchema (some ps) none) spec = some v →
      ∃ kvs, v = Json.obj kvs ∧
        kvs.map Prod.fst = ps.map Prod.fst ∧
        ∀ y ∈ kvs, ∃ sch, (y.1, sch) ∈ ps ∧
          generateExampleFromSchema fuel sch spec = some y.2) ∧
    generateExampleFromSchema 2 scenarioASchema emptyDoc =
      some (.obj [("id", .num 0)]) ∧
    generateExampleFromSchema 2 scenarioBSchema emptyDoc =
      some (.obj [("id", .num 0), ("name", .str "string")]) := by
  refine ⟨?_, ?_, rfl, rfl⟩
  · intro fuel spec ps r v h
    rw [show generateExampleFromSchema (fuel + 1)
        (objSchema (some ps) (some r)) spec =
      (mapOptM (fun kv =>
          (generateExampleFromSchema fuel kv.2 spec).map (fun v => (kv.1, v)))
        (ps.filter (fun kv => r.contains kv.1))).map Json.obj from rfl] at h
    cases hm : mapOptM (fun kv =>
        (generateExampleFromSchema fuel kv.2 spec).map (fun v => (kv.1, v)))
        (ps.filter (fun kv => r.contains kv.1)) with
    | none => rw [hm] at h; simp at h
    | some kvs =>
      rw [hm] at h
      simp only [Option.map_some', Option.some.injEq] at h
      obtain ⟨hkeys, hvals⟩ := @mapOptM_props (fun sch => generateExampleFromSchema fuel sch spec) _ kvs hm
      refine ⟨kvs, h.symm, hkeys, ?_⟩
      intro y hy
      obtain ⟨sch, hmem, hg⟩ := hvals y hy
      exact ⟨sch, List.mem_of_mem_filter hmem, hg⟩
  · intro fuel spec ps v h
    rw [show generateExampleFromSchema (fuel + 1)
        (objSchema (some ps) none) spec =
      (mapOptM (fun kv =>
          (generateExampleFromSchema fuel kv.2 spec).map (fun v => (kv.1, v)))
        (ps.filter (fun _ => true))).map Json.obj from rfl] at h
    rw [List.filter_true] at h
    cases hm : mapOptM (fun kv =>
        (generateExampleFromSchema fuel kv.2 spec).map (fun v => (kv.1, v))) ps with
    | none => rw [hm] at h; simp at h
    | some kvs =>
      rw [hm] at h
      simp only [Option.map_some', Option.some.injEq] at h
      obtain ⟨hkeys, hvals⟩ := @mapOptM_props (fun sch => generateExampleFromSchema fuel sch spec) _ kvs hm
      exact ⟨kvs, h.symm, hkeys, hvals⟩

/-- Claim C4 witness: the general required-list rule applied to the
Scenario A schema. -/
theorem claim_C4_witness :
    ∃ kvs, (Json.obj [("id", Json.num 0)]) = Json.obj kvs ∧
      kvs.map Prod.fst =
        (([("id", primSchema "integer"), ("name", primSchema "string")].filter
            (fun kv => (["id"] : List String).contains kv.1)).map Prod.fst) ∧
      ∀ y ∈ kvs, ∃ sch,
        (y.1, sch) ∈ [("id", primSchema "integer"), ("name", primSchema "string")] ∧
        generateExampleFromSchema 1 sch emptyDoc = some y.2 :=
  claim_C4.1 1 emptyDoc
    [("id", primSchema "integer"), ("name", primSchema "string")]
    ["id"] (Json.obj [("id", Json.num 0)]) rfl

/-- Claim C5.  The derived endpoint list is always ordered by the
comparator key, path first and upper-cased method second; re-deriving
from the same document yields the same list (the derivation is a pure
function of the document); and the Scenario C document lists
(/items, GET), (/items, POST), (/users, GET) in that order. -/
theorem claim_C5 :
    (∀ spec : Option Document,
      (endpoints spec).Pairwise (fun a b => endpointLe a b = true)) ∧
    (∀ spec : Option Document, endpoints spec = endpoints spec) ∧
    ((endpoints (some scenarioCDoc)).map (fun e => (e.path, e.method)) =
      [("/items", "GET"), ("/items", "POST"), ("/users", "GET")]) := by
  refine ⟨?_, fun _ => rfl, rfl⟩
  intro spec
  cases spec with
  | none => simp [endpoints]
  | some doc => exact sortEndpoints_pairwise _

/-- Claim C6.  On a pointer already in the visited set the formatter
emits the single circular-marker line, at any fuel and independently of
the document, so it does not recurse; and because the pointer is removed
from the visited set on the way back out, a reference reachable along
two non-overlapping property paths is rendered in full on each path. -/
theorem claim_C6 :
    (∀ (fuel : Nat) (spec : Document) (visited : List String) (level : Nat)
        (pn : Option String) (ptr : String),
      visited.contains ptr = true →
      formatSchemaForDisplay (fuel + 1) (.ref ptr) spec visited level pn =
        some (repeatStr "  " level ++ pn.getD "" ++ " → " ++ lastSegment ptr ++
          " ⚠ circular\n")) ∧
    formatSchemaForDisplay 4 twoPathSchema twoPathDoc [] 0 none =
      some "\x7b\n  a → R\n    v: string\n  b → R\n    v: string\n\x7d\n" := by
  refine ⟨?_, rfl⟩
  intro fuel spec visited level pn ptr h
  show (if visited.contains ptr then _ else _) = _
  rw [if_pos h]

/-- Claim C6 witness: the circular-marker line at a concrete visited
pointer, fuel one, property name a. -/
theorem claim_C6_witness :
    formatSchemaForDisplay 1 (.ref rPtr) twoPathDoc [rPtr] 1 (some "a") =
      some (repeatStr "  " 1 ++ (some "a").getD "" ++ " → " ++ lastSegment rPtr ++
        " ⚠ circular\n") :=
  claim_C6.1 0 twoPathDoc [rPtr] 1 (some "a") rPtr (by decide)

/-- Claim C3.  A POST, PUT or PATCH dispatch whose non-blank body text
does not parse as JSON calls no fetch, records a history entry carrying
responseError Invalid JSON in request body, and that entry has a null
response (and no status). -/
theorem claim_C3 : ∀ (inp : SendRequestInput) (p m : String),
    truthyOpt inp.selectedPath = some p →
    truthyOpt inp.selectedMethod = some m →
    m ∈ ["POST", "PUT", "PATCH"] →
    jsTrim inp.requestBody ≠ "" →
    parseJson inp.requestBody = none →
    (sendRequest inp).fetchCalled = false ∧
    (sendRequest inp).responseError = some "Invalid JSON in request body" ∧
    1 ≤ (sendRequest inp).historyAdds ∧
    ∃ e, (sendRequest inp).entry = some e ∧
      e.responseError = some "Invalid JSON in request body" ∧
      e.response = none ∧ e.status = none := by
  intro inp p m hp hm hmem htrim hparse
  simp only [sendRequest, hp, hm]
  rw [if_pos (show m ∈ ["POST", "PUT", "PATCH"] ∧ jsTrim inp.requestBody ≠ "" from
    ⟨hmem, htrim⟩), hparse]
  exact ⟨rfl, rfl, by norm_num, _, rfl, rfl, rfl, rfl⟩

/-- Claim C3 witness: the Scenario E input, body text left-brace-invalid
on a POST. -/
theorem claim_C3_witness :
    (sendRequest badBodyInput).fetchCalled = false ∧
    (sendRequest badBodyInput).responseError = some "Invalid JSON in request body" ∧
    1 ≤ (sendRequest badBodyInput).historyAdds ∧
    ∃ e, (sendRequest badBodyInput).entry = some e ∧
      e.responseError = some "Invalid JSON in request body" ∧
      e.response = none ∧ e.status = none :=
  claim_C3 badBodyInput "/todo" "POST" rfl rfl (by decide) (by decide) rfl

/-- Claim C9.  The aborted dispatch of an unparsable body passes the
entry to addRequestHistory twice, once in the parse-failure branch and
once in the finally block that runs on the early return, so the log
grows by two entries (the same entry object twice). -/
theorem claim_C9 : ∀ (inp : SendRequestInput) (p m : String),
    truthyOpt inp.selectedPath = some p →
    truthyOpt inp.selectedMethod = some m →
    m ∈ ["POST", "PUT", "PATCH"] →
    jsTrim inp.requestBody ≠ "" →
    parseJson inp.requestBody = none →
    (sendRequest inp).historyAdds = 2 ∧
    ∃ e, (sendRequest inp).entry = some e ∧
      ∀ prior, historyAfterSend (sendRequest inp) prior = e :: e :: prior ∧
        (historyAfterSend (sendRequest inp) prior).length = prior.length + 2 := by
  intro inp p m hp hm hmem htrim hparse
  simp only [sendRequest, hp, hm]
  rw [if_pos (show m ∈ ["POST", "PUT", "PATCH"] ∧ jsTrim inp.requestBody ≠ "" from
    ⟨hmem, htrim⟩), hparse]
  refine ⟨rfl, _, rfl, fun prior => ⟨rfl, ?_⟩⟩
  show (_ :: _ :: prior).length = prior.length + 2
  simp

/-- Claim C9 witness: the Scenario E input grows an empty log to two
entries. -/
theorem claim_C9_witness :
    (sendRequest badBodyInput).historyAdds = 2 ∧
    ∃ e, (sendRequest badBodyInput).entry = some e ∧
      ∀ prior, historyAfterSend (sendRequest badBodyInput) prior = e :: e :: prior ∧
        (historyAfterSend (sendRequest badBodyInput) prior).length = prior.length + 2 :=
  claim_C9 badBodyInput "/todo" "POST" rfl rfl (by decide) (by decide) rfl

/-- The parts array of formatAsCurl, written as one concatenation of its
five segments. -/
theorem curlParts_eq (item : RequestHistoryItem) : curlParts item =
    ["curl"] ++
    (if item.method ≠ "GET" then ["-X " ++ item.method] else []) ++
    item.headers.map (fun kv => hFlagPart kv) ++
    (if item.method ∈ ["POST", "PUT", "PATCH"] ∧ curlParts.bodyTruthy item.requestBody
      then [dFlagPart item] else []) ++
    ["\"" ++ item.url ++ "\""] := by
  unfold curlParts
  dsimp only []
  split_ifs with h1 h2 <;> simp [hFlagPart, dFlagPart]

/-- Unequal two-character prefixes make unequal strings. -/
theorem ne_of_take2 {a b : String} (h : a.data.take 2 ≠ b.data.take 2) : a ≠ b :=
  fun he => h (by rw [he])

/-- Prefix of the method flag. -/
theorem take2_X (m : String) : ("-X " ++ m).data.take 2 = ['-', 'X'] := by
  rw [String.data_append]
  exact rfl

/-- Prefix of a header flag. -/
theorem take2_hFlagPart (kv : String × String) :
    (hFlagPart kv).data.take 2 = ['-', 'H'] := by
  unfold hFlagPart
  rw [String.data_append, String.data_append, String.data_append, String.data_append]
  exact rfl

/-- Prefix of the data flag. -/
theorem take2_dFlagPart (item : RequestHistoryItem) :
    (dFlagPart item).data.take 2 = ['-', 'd'] := by
  unfold dFlagPart
  rw [String.data_append, String.data_append, String.data_append]
  exact rfl

/-- Prefix of the quoted URL. -/
theorem take2_quoted (u : String) :
    ("\"" ++ u ++ "\"").data.take 2 = '"' :: (u.data ++ ['"']).take 1 := by
  rw [String.data_append, String.data_append]
  rfl

/-- Claim C8.  formatAsCurl is a pure projection of a recorded entry and
its parts array (joined by line continuations) satisfies: no method-flag
part at all for GET and the method flag present otherwise; one header
flag per recorded header with double quotes escaped; the data flag
present exactly for body-bearing methods with a truthy body; the quoted
URL last; and Scenario F renders exactly as claimed. -/
theorem claim_C8 :
    (∀ item : RequestHistoryItem, item.method = "GET" →
      ∀ p ∈ curlParts item, ∀ m : String, p ≠ "-X " ++ m) ∧
    (∀ item : RequestHistoryItem, item.method ≠ "GET" →
      "-X " ++ item.method ∈ curlParts item) ∧
    (∀ item : RequestHistoryItem, ∀ kv ∈ item.headers, hFlagPart kv ∈ curlParts item) ∧
    (∀ item : RequestHistoryItem,
      (curlParts item).countP (fun p => decide (p.data.take 2 = ['-', 'H'])) =
        item.headers.length) ∧
    (∀ item : RequestHistoryItem, item.method ∈ ["POST", "PUT", "PATCH"] →
      curlParts.bodyTruthy item.requestBody = true →
      dFlagPart item ∈ curlParts item) ∧
    (∀ item : RequestHistoryItem,
      ¬(item.method ∈ ["POST", "PUT", "PATCH"] ∧
        curlParts.bodyTruthy item.requestBody = true) →
      ∀ p ∈ curlParts item, p.data.take 2 ≠ ['-', 'd']) ∧
    (∀ item : RequestHistoryItem,
      (curlParts item).getLast? = some ("\"" ++ item.url ++ "\"")) ∧
    formatAsCurl scenarioFEntry =
      "curl \\\n  -H \"Authorization: Bearer abc\" \\\n  \"https://x/y\"" := by
  refine ⟨?_, ?_, ?_, ?_, ?_, ?_, ?_, rfl⟩
  · intro item hg p hp m
    rw [curlParts_eq] at hp
    simp [hg, List.mem_append] at hp
    rcases hp with rfl | ⟨a, b, _, rfl⟩ | rfl
    · apply ne_of_take2
      rw [take2_X]
      decide
    · apply ne_of_take2
      rw [take2_hFlagPart, take2_X]
      decide
    · apply ne_of_take2
      rw [take2_quoted, take2_X]
      simp
  · intro item hg
    rw [curlParts_eq, if_pos hg]
    exact List.mem_append_left _ (List.mem_append_left _ (List.mem_append_left _
      (List.mem_append_right _ (List.mem_singleton.mpr rfl))))
  · intro item kv hkv
    rw [curlParts_eq]
    have hmem : hFlagPart kv ∈ item.headers.map (fun kv => hFlagPart kv) :=
      List.mem_map_of_mem _ hkv
    exact List.mem_append_left _ (List.mem_append_left _ (List.mem_append_right _ hmem))
  · intro item
    rw [curlParts_eq]
    rw [List.countP_append, List.countP_append, List.countP_append, List.countP_append]
    have h0 : List.countP (fun p => decide (p.data.take 2 = ['-', 'H'])) ["curl"] = 0 := by
      decide
    have hx : List.countP (fun p => decide (p.data.take 2 = ['-', 'H']))
        (if item.method ≠ "GET" then ["-X " ++ item.method] else []) = 0 := by
      split_ifs
      · simp [List.countP_cons, take2_X]
      · rfl
    have hd : List.countP (fun p => decide (p.data.take 2 = ['-', 'H']))
        (if item.method ∈ ["POST", "PUT", "PATCH"] ∧
            curlParts.bodyTruthy item.requestBody
          then [dFlagPart item] else []) = 0 := by
      split_ifs
      · simp [List.countP_cons, take2_dFlagPart]
      · rfl
    have hu : List.countP (fun p => decide (p.data.take 2 = ['-', 'H']))
        ["\"" ++ item.url ++ "\""] = 0 := by
      simp [List.countP_cons, take2_quoted]
    have hh : List.countP (fun p => decide (p.data.take 2 = ['-', 'H']))
        (item.headers.map (fun kv => hFlagPart kv)) = item.headers.length := by
      rw [List.countP_map]
      rw [List.countP_eq_length]
      intro kv _
      simp [Function.comp, take2_hFlagPart]
    rw [h0, hx, hd, hu, hh]
    omega
  · intro item hm ht
    rw [curlParts_eq, if_pos (show item.method ∈ ["POST", "PUT", "PATCH"] ∧
      curlParts.bodyTruthy item.requestBody = true from ⟨hm, ht⟩)]
    exact List.mem_append_left _ (List.mem_append_right _ (List.mem_singleton.mpr rfl))
  · intro item hcond p hp
    rw [curlParts_eq, if_neg hcond] at hp
    by_cases hg : item.method ≠ "GET" <;> simp [hg, List.mem_append] at hp
    · rcases hp with rfl | rfl | ⟨a, b, _, rfl⟩ | rfl
      · decide
      · rw [take2_X]
        decide
      · rw [take2_hFlagPart]
        decide
      · rw [take2_quoted]
        simp
    · rcases hp with rfl | ⟨a, b, _, rfl⟩ | rfl
      · decide
      · rw [take2_hFlagPart]
        decide
      · rw [take2_quoted]
        simp
  · intro item
    rw [curlParts_eq]
    exact List.getLast?_concat _

/-- Claim C8 witness: the GET rule, the header count and the trailing
quoted URL at the Scenario F entry. -/
theorem claim_C8_witness :
    ("curl" ≠ "-X " ++ "GET") ∧
    (curlParts scenarioFEntry).countP (fun p => decide (p.data.take 2 = ['-', 'H'])) =
      scenarioFEntry.headers.length ∧
    (curlParts scenarioFEntry).getLast? = some ("\"" ++ scenarioFEntry.url ++ "\"") :=
  ⟨claim_C8.1 scenarioFEntry rfl "curl" (by decide) "GET",
   claim_C8.2.2.2.1 scenarioFEntry,
   claim_C8.2.2.2.2.2.2.1 scenarioFEntry⟩

end OpenApiStudio
